import Mathlib

/-!
# Verification model of the `fileout` rotating log writer

This file gives a shallow embedding, in Lean 4, of the rotating file writer
implemented in `writer/files/file.go` (package `fileout`), and proves or
refutes the specified properties of its rotation decision engine, collision
probe, maintenance sweep and rename helper.

Modelling conventions:
* File paths are lists of characters (`Str := List Char`); `strings.Split`
  is modelled by a specialised `splitOnTmp` that splits on the temp-file
  marker `".tmp"` exactly as Go does (left-to-right, non-overlapping).
* Go `time.Time` and `time.Duration` values are modelled as `Int`
  nanosecond counts.  `time.Duration` arithmetic is 64-bit two's-complement,
  so multiplications that can overflow are wrapped with `wrap64`.
  (`time.Time.Sub`'s saturation at ±2⁶³ is not reachable at the values any
  theorem below uses and is modelled as plain subtraction.)
* The external collaborators that the package imports
  (`strftime`, `utils.GenRolaFileName`, `os.Stat`, `rand.Intn`) are
  parameters of an `Env` structure: `GenRolaFileName` is an arbitrary
  deterministic name generator, `os.Stat` an arbitrary function to a
  `StatResult`, `rand.Intn(10)` an arbitrary `Fin 10`.
* I/O that always succeeds in the properties under study (`createFile`,
  `bufio` writes) is modelled on its success path; a `Write` that reaches
  the underlying stream accepts all its bytes.  The collision-probe `for`
  loop is modelled with explicit fuel; `none` results stand for the probe
  not terminating within the fuel (respectively, for a fault such as a nil
  dereference in `Sync`).
-/

namespace Fileout

/-- File paths / Go strings, as lists of characters. -/
abbrev Str := List Char

/-- The temp-file marker `templog = ".tmp"`. -/
def tmpMarker : Str := ['.', 't', 'm', 'p']

/-- Worker for `splitOnTmp`: returns the first marker-delimited segment and
the list of remaining segments.  When the remaining input starts with the
marker, a split point is emitted and scanning resumes after the marker;
otherwise the head character is prepended to the first segment. -/
def splitOnTmpAux : Str → Str × List Str
  | '.' :: 't' :: 'm' :: 'p' :: rest =>
    let r := splitOnTmpAux rest
    ([], r.1 :: r.2)
  | c :: rest =>
    let r := splitOnTmpAux rest
    (c :: r.1, r.2)
  | [] => ([], [])

/-- Model of `strings.Split(s, ".tmp")`: split `s` at each non-overlapping occurrence
of the marker, scanning left to right.  Mirrors Go's `strings.Split` for the
non-empty separator `".tmp"` (in particular the result is never empty). -/
def splitOnTmp (l : Str) : List Str :=
  (splitOnTmpAux l).1 :: (splitOnTmpAux l).2

/-- The pure helper `fileout.rename` (file.go:365-383): the map from a path to the name
it should be renamed to; `[]` (Go `""`) means "nothing to rename". -/
def rename (old : Str) : Str :=
  let filenames := splitOnTmp old
  let lenth := filenames.length
  if lenth = 2 then filenames.headD []
  else if lenth > 2 then
    (filenames.enum.foldl
      (fun name p =>
        let n := p.1
        let spe := p.2
        let name := if n < lenth - 2 then name ++ spe ++ tmpMarker else name
        if n = lenth - 2 ∧ spe ≠ [] then name ++ spe else name)
      [])
  else []

/-- The operation `fileout.renameFile` (file.go:357-362), seen as the resulting on-disk
path of the file: `os.Rename(fullName, na)` is performed only when the
computed name `na` is non-empty, otherwise the file keeps its path. -/
def renameFileEffect (fullName : Str) : Str :=
  if rename fullName ≠ [] then rename fullName else fullName

/-! ## Configuration (`Options` and the derived accessor methods) -/

/-- Two's-complement 64-bit wraparound, as performed by Go's `int64`
multiplication. -/
def wrap64 (n : Int) : Int := (n + 2 ^ 63) % 2 ^ 64 - 2 ^ 63

/-- The constant `megabyte = 1024 * 1024` (file.go:34). -/
def megabyte : Int := 1024 * 1024

/-- One minute (`time.Minute`) in nanoseconds. -/
def timeMinute : Int := 60000000000

/-- The constant `dittotime = int64(5 * time.Minute)` (file.go:36): 5 minutes,
expressed in *nanoseconds* (note: the code compares it against a value in
milliseconds). -/
def dittotime : Int := 300000000000

/-- Go's `time.Duration.Milliseconds()`: nanoseconds divided by 10⁶, truncated
toward zero (Go integer division). -/
def goMillis (d : Int) : Int := d.tdiv 1000000

/-- The option set of the writer (`Options`, file.go:97-112).  The function
values (`gtr`, `stuffunc`) are abstracted: only the presence of the callback
(`stuffunc != nil`) is observable in the modelled behaviour. -/
structure Options where
  bufSize : Int
  maxSize : Int
  maxAge : Int
  rotationTime : Int
  requriedTimezone : Bool
  hasStuffunc : Bool
deriving DecidableEq, Repr

/-- Method `maxSize` of `fileout` (file.go:165-170): maximum file size in bytes. -/
def Options.maxSizeBytes (o : Options) : Int :=
  if o.maxSize ≤ 0 then 100 * megabyte else wrap64 (o.maxSize * megabyte)

/-- Method `bufsize` of `fileout` (file.go:173-181). -/
def Options.bufsize (o : Options) : Int :=
  if o.bufSize < 0 then 1024
  else if o.bufSize = 0 then 4 * megabyte
  else wrap64 (o.bufSize * megabyte)

/-- Method `rotationTime` of `fileout` (file.go:184-192): the effective rotation
interval.  Negative configured values yield 0; values in `[0, time.Minute)`
yield `time.Minute`; values `≥ time.Minute` are multiplied *again* by
`time.Minute` (with 64-bit wraparound), faithfully to the source. -/
def Options.rotationTimeEff (o : Options) : Int :=
  if o.rotationTime < 0 then 0
  else if o.rotationTime < timeMinute then timeMinute
  else wrap64 (o.rotationTime * timeMinute)

/-- Method `maxAge` of `fileout` (file.go:195-200): retention age in nanoseconds. -/
def Options.maxAgeEff (o : Options) : Int :=
  if o.maxAge > 0 then wrap64 (o.maxAge * 86400000000000)
  else 31536000000000000

/-! ## Writer state and environment -/

/-- Result of an `os.Stat` call.  The code only ever distinguishes
`err != nil` from `err == nil`; keeping "not found" and other errors as
separate constructors lets theorems express that the two are treated
alike. -/
inductive StatResult where
  | ok
  | errNotFound
  | errOther
deriving DecidableEq, Repr

/-- The mutable fields of `fileout` (file.go:136-158) that the modelled
operations read or write.  The open file handle `fr` is identified by the
path it was opened with (`fr.Name()`); `hasW` records whether the
`bufio.Writer` `w` is non-nil. -/
structure WriterState where
  fr : Option Str
  size : Int
  currTime : Int
  generation : Nat
  hasW : Bool
deriving DecidableEq, Repr

/-- The zero-valued `fileout` returned by `NewFileout` (file.go:129-133):
no open file, no buffered writer, zero size, generation and time. -/
def initWriterState : WriterState :=
  { fr := none, size := 0, currTime := 0, generation := 0, hasW := false }

/-- External collaborators of one `getWriter` call:
* `genName t rt g` models `utils.GenRolaFileName(d.strf, t, rt, g,
  d.opt.requriedTimezone, templog)` — deterministic in its arguments, with
  the formatter and timezone flag fixed;
* `stat` models `os_Stat`;
* `now` is the `time.Now()` sampled at file.go:239, `nowCheck` the
  `currentTime()` (also `time.Now`) sampled at file.go:268;
* `rand` models `globalRand.Intn(randnum)` with `randnum = 10`. -/
structure Env where
  genName : Int → Int → Nat → Str
  stat : Str → StatResult
  now : Int
  nowCheck : Int
  rand : Fin 10

/-- The filesystem effects one `getWriter` call performs, beyond the state
update: `created` is the path passed to `createFile` (file.go:286), if any;
`finalized` is the on-disk path, after `renameFile`, of the file closed by
`close()` (file.go:217-228), if one was open. -/
structure GWOut where
  created : Option Str
  finalized : Option Str
deriving DecidableEq, Repr

/-- The rotation condition of file.go:247:
`d.fr == nil || (d.size+writeLen) > d.maxSize() ||
 (rotationtime > 0 && filename != d.fr.Name())`
(short-circuit evaluation: the third disjunct is only reached with
`d.fr != nil`, so reading the name under `getD` is faithful). -/
def needRotation (o : Options) (fr : Option Str) (size writeLen : Int)
    (rotationtime : Int) (filename0 : Str) : Bool :=
  fr.isNone || decide (size + writeLen > o.maxSizeBytes) ||
    (decide (rotationtime > 0) && decide (filename0 ≠ fr.getD []))

/-- The restart-collision mitigation of file.go:267-269:
`if d.currTime.Sub(currentTime()).Milliseconds() < dittotime &&
 d.generation < 1 { d.generation = globalRand.Intn(randnum) }`.
Note the unit mismatch carried over from the source: a millisecond count is
compared against `dittotime`, which is 5 minutes in nanoseconds. -/
def mitigatedGeneration (env : Env) (currTime1 : Int) (gen1 : Nat) : Nat :=
  if goMillis (currTime1 - env.nowCheck) < dittotime ∧ gen1 < 1 then
    env.rand.val
  else gen1

/-- The collision-probe `for` loop of file.go:271-278: regenerate the
candidate name for the current generation, `os_Stat` its finalized form
(`d.rename(filename)`), stop at the first generation whose stat returns an
error (of any kind), incrementing the generation otherwise.  `fuel` bounds
the number of iterations; `none` means the loop did not terminate within
the fuel. -/
def probeGen (stat : Str → StatResult) (name : Nat → Str) :
    Nat → Nat → Option Nat
  | _, 0 => none
  | g, fuel + 1 =>
    if stat (rename (name g)) ≠ StatResult.ok then some g
    else probeGen stat name (g + 1) fuel

/-- The time `d.currTime` holds after file.go:239: refreshed to `time.Now()`
when the effective rotation interval is positive, otherwise untouched. -/
def currTime1 (env : Env) (o : Options) (st : WriterState) : Int :=
  if o.rotationTimeEff > 0 then env.now else st.currTime

/-- The `filename` computed at file.go:240 (the Go zero value `""` when the
effective rotation interval is not positive). -/
def filename0 (env : Env) (o : Options) (st : WriterState) : Str :=
  if o.rotationTimeEff > 0 then
    env.genName (currTime1 env o st) o.rotationTimeEff st.generation
  else []

/-- Function `getWriter` of `fileout` (file.go:231-300) on its success path, as a function
from the pre-state to the post-state and the performed file operations.

Faithfulness notes:
* `gentime` is declared `false` and only ever assigned `false`
  (file.go:233, 238), so the `if gentime` block at file.go:256-258 is dead
  and not modelled.
* The `startMill.Do`/channel send at file.go:259-266 signals the
  maintenance goroutine and touches no modelled writer state; it is not
  modelled.
* `d.generation++` at file.go:250 runs exactly when the size trigger fired
  (inside the rotation branch); the random reassignment and the probe loop
  then run on that incremented value.
* In the dry-run branch (`!createFile`, file.go:279-284) the writer is
  closed (`close()` flushes, closes `fr` and renames it), `size` and `fr`
  are cleared, and `w` is returned unchanged — no file is created.
* `createFile` errors are outside the modelled success path (`none` is
  reserved for probe fuel exhaustion). -/
def getWriter (env : Env) (o : Options) (st : WriterState) (writeLen : Int)
    (createFile : Bool) (fuel : Nat) : Option (WriterState × GWOut) :=
  let rotationtime := o.rotationTimeEff
  let ct := currTime1 env o st
  if needRotation o st.fr st.size writeLen rotationtime (filename0 env o st) then
    let gen1 := if st.size + writeLen > o.maxSizeBytes then
        st.generation + 1 else st.generation
    let gen2 := mitigatedGeneration env ct gen1
    match probeGen env.stat (fun g => env.genName ct rotationtime g) gen2 fuel with
    | none => none
    | some gf =>
      let filename := env.genName ct rotationtime gf
      if createFile then
        some ({ fr := some filename, size := 0, currTime := ct,
                generation := gf, hasW := true },
              { created := some filename,
                finalized := st.fr.map renameFileEffect })
      else
        some ({ fr := none, size := 0, currTime := ct,
                generation := gf, hasW := st.hasW },
              { created := none,
                finalized := st.fr.map renameFileEffect })
  else
    some ({ st with currTime := ct }, { created := none, finalized := none })

/-- Method `Write` of `fileout` (file.go:386-396) on its success path: acquire the
writer via `getWriter(b, true)`, write the bytes (a successful
`bufio.Writer.Write` accepts all `len(b)` bytes), and add the accepted
count to `d.size`. -/
def WriteOp (env : Env) (o : Options) (st : WriterState) (writeLen : Nat)
    (fuel : Nat) : Option (WriterState × GWOut × Nat) :=
  match getWriter env o st (writeLen : Int) true fuel with
  | none => none
  | some (st1, out) =>
    some ({ st1 with size := st1.size + (writeLen : Int) }, out, writeLen)

/-- Method `Sync` of `fileout` (file.go:203-207): `d.w.Flush()`.  When `d.w` is nil the
method call dereferences a nil pointer; that fault is modelled as `none`.
A successful flush is `some ()`. -/
def SyncOp (st : WriterState) : Option Unit :=
  if st.hasW then some () else none

/-! ## The maintenance sweep (`stduffHandler`) -/

/-- One entry of the glob result as the sweep sees it: the matched path
(`fullName`), the stat result and, when stat succeeds, the `FileInfo`
fields the sweep reads — `Name()` (the base name of the file), `ModTime()`
and `Size()`. -/
structure FileEntry where
  fullName : Str
  baseName : Str
  modTime : Int
  fsize : Int
  statErr : Bool
deriving DecidableEq, Repr

/-- The filesystem actions of one sweep pass: paths removed, renames
performed (source as passed to `os.Rename`, i.e. the entry's base name, and
target), and paths handed to the completion callback. -/
structure SweepResult where
  deleted : List Str
  renamed : List (Str × Str)
  callbacks : List Str
deriving DecidableEq, Repr

/-- The condition under which the sweep's temp-file branch fires
(file.go:335-338) and the pass `return`s: the entry is stat-able, within
the retention window, carries the temp marker, and is either at least as
old as the staleness threshold — `d.rotationTime()*2`, an `int64`
multiplication that wraps, hence `wrap64` — or within 2048 bytes of the
size limit. -/
def stopsSweep (o : Options) (ct : Int) (e : FileEntry) : Prop :=
  e.statErr = false ∧ ¬(ct - e.modTime > o.maxAgeEff) ∧
    tmpMarker.isSuffixOf e.fullName ∧
    (ct - e.modTime ≥ wrap64 (o.rotationTimeEff * 2) ∨
      e.fsize + 2048 > o.maxSizeBytes)

instance (o : Options) (ct : Int) (e : FileEntry) :
    Decidable (stopsSweep o ct e) := by
  unfold stopsSweep; infer_instance

/-- Function `stduffHandler` of `fileout` (file.go:321-345) over an already-expanded glob
match list.  Per entry, in source order: skip on stat error; delete and
continue if older than the retention age; if the temp-marker branch fires,
`return d.renameFile(f.Name())` — the rename (a no-op when the stripped
name is empty) is recorded and the pass stops, later entries untouched;
otherwise invoke the callback when one is configured. -/
def stduffHandler (o : Options) (ct : Int) : List FileEntry → SweepResult
  | [] => { deleted := [], renamed := [], callbacks := [] }
  | e :: rest =>
    if e.statErr then stduffHandler o ct rest
    else if ct - e.modTime > o.maxAgeEff then
      let r := stduffHandler o ct rest
      { r with deleted := e.fullName :: r.deleted }
    else if tmpMarker.isSuffixOf e.fullName ∧
        (ct - e.modTime ≥ wrap64 (o.rotationTimeEff * 2) ∨
          e.fsize + 2048 > o.maxSizeBytes) then
      { deleted := [],
        renamed := if rename e.baseName ≠ [] then
            [(e.baseName, rename e.baseName)] else [],
        callbacks := [] }
    else
      let r := stduffHandler o ct rest
      if o.hasStuffunc then { r with callbacks := e.fullName :: r.callbacks }
      else r

/-! ## Concrete instances used by witnesses and counterexamples -/

/-- A stat function for which the finalized name of generation 0 exists and
all other probes fail with "not found". -/
def statC3 : Str → StatResult :=
  fun s => if s = "f0".toList then StatResult.ok else StatResult.errNotFound

/-- A name generator giving distinct temp names for generations 0 and
above. -/
def nameC3 : Nat → Str :=
  fun g => if g = 0 then "f0.tmp".toList else "f1.tmp".toList

/-- An environment whose clock sample at the mitigation check lies 10⁴
seconds (about 2.8 hours, far beyond 5 minutes) before the bucket
timestamp being opened, with random source fixed at 7 and every stat probe
failing. -/
def envC4 : Env :=
  { genName := fun _ _ _ => "g.tmp".toList,
    stat := fun _ => StatResult.errOther,
    now := 10000000000000, nowCheck := 0, rand := ⟨7, by decide⟩ }

/-- Options with all defaults (rotation interval configured 0). -/
def optC4 : Options := ⟨0, 0, 0, 0, true, false⟩

/-- An environment for the size-rotation witness: constant candidate name,
never-existing finalized files. -/
def envC1 : Env :=
  { genName := fun _ _ _ => "w1.tmp".toList,
    stat := fun _ => StatResult.errNotFound,
    now := 0, nowCheck := 0, rand := ⟨3, by decide⟩ }

/-- Options with a 1 MB size limit and time-based rotation disabled. -/
def optC1 : Options := ⟨0, 1, 0, -1, true, false⟩

/-- A writer state 6 bytes below the 1 MiB limit. -/
def stC1 : WriterState :=
  { fr := some "w0.tmp".toList, size := 1048570, currTime := 0,
    generation := 0, hasW := true }

/-- The expected post-state of the size-rotation witness. -/
def stC1after : WriterState :=
  { fr := some "w1.tmp".toList, size := 0, currTime := 0,
    generation := 1, hasW := true }

/-- The expected file operations of the size-rotation witness. -/
def outC1 : GWOut :=
  { created := some "w1.tmp".toList, finalized := some ("w0".toList) }

/-- An environment whose generated name coincides with the open file. -/
def envC2 : Env :=
  { genName := fun _ _ _ => "cur.tmp".toList,
    stat := fun _ => StatResult.errNotFound,
    now := 50, nowCheck := 50, rand := ⟨2, by decide⟩ }

/-- Options with a 1 MB size limit, rotation interval configured 0 (one
minute effective). -/
def optC2 : Options := ⟨0, 1, 0, 0, true, false⟩

/-- A writer state with the file of the current bucket open. -/
def stC2 : WriterState :=
  { fr := some "cur.tmp".toList, size := 10, currTime := 0,
    generation := 0, hasW := true }

/-- An environment for the dry-run witness. -/
def envC9 : Env :=
  { genName := fun _ _ _ => "d1.tmp".toList,
    stat := fun _ => StatResult.errNotFound,
    now := 0, nowCheck := 0, rand := ⟨1, by decide⟩ }

/-- Options with a 1 MB size limit and time-based rotation disabled. -/
def optC9 : Options := ⟨0, 1, 0, -1, true, false⟩

/-- A writer state over the size limit (forcing rotation on any check). -/
def stC9 : WriterState :=
  { fr := some "d0.tmp".toList, size := 2000000, currTime := 0,
    generation := 0, hasW := true }

/-- The expected post-state of the dry-run witness. -/
def stC9after : WriterState :=
  { fr := none, size := 0, currTime := 0, generation := 1, hasW := true }

/-- The expected file operations of the dry-run witness. -/
def outC9 : GWOut :=
  { created := none, finalized := some ("d0".toList) }

/-- An environment for the sync-after-write witness. -/
def envC10 : Env :=
  { genName := fun _ _ _ => "s.tmp".toList,
    stat := fun _ => StatResult.errNotFound,
    now := 0, nowCheck := 0, rand := ⟨4, by decide⟩ }

/-- Options with every field defaulted and rotation disabled. -/
def optC10 : Options := ⟨0, 0, 0, -1, true, false⟩

/-- The expected post-state of the sync-after-write witness. -/
def stC10after : WriterState :=
  { fr := some "s.tmp".toList, size := 3, currTime := 0,
    generation := 4, hasW := true }

/-- The expected file operations of the sync-after-write witness. -/
def outC10 : GWOut :=
  { created := some "s.tmp".toList, finalized := none }

/-- Sweep options: 1 MB size limit, 1-day retention, one-minute effective
interval, callback configured. -/
def optSweep : Options := ⟨0, 1, 1, 0, true, true⟩

/-- The sweep's reference bucket timestamp (10¹⁵ ns). -/
def ctSweep : Int := 1000000000000000

/-- A temp-marked file two rotation intervals old: triggers the sweep's
finalize-and-return branch. -/
def entTmpA : FileEntry :=
  { fullName := "a.tmp".toList, baseName := "a.tmp".toList,
    modTime := 1000000000000000 - 120000000000, fsize := 10, statErr := false }

/-- A second temp-marked file, equally stale. -/
def entTmpB : FileEntry :=
  { fullName := "b.tmp".toList, baseName := "b.tmp".toList,
    modTime := 1000000000000000 - 120000000000, fsize := 10, statErr := false }

/-- A finalized file far older than the retention age. -/
def entOld : FileEntry :=
  { fullName := "old.log".toList, baseName := "old.log".toList,
    modTime := 0, fsize := 10, statErr := false }

/-- A finalized file 5 seconds old: within retention, not temp-marked. -/
def entRecent : FileEntry :=
  { fullName := "r.log".toList, baseName := "r.log".toList,
    modTime := 1000000000000000 - 5000000000, fsize := 10, statErr := false }

end Fileout

/-! # Theorems -/

namespace Fileout

/-- Helper: on input free of the temp marker, the split worker returns the
whole input as the single segment. -/
theorem splitOnTmpAux_no_marker (l : Str) (h : ¬ tmpMarker <:+: l) :
    splitOnTmpAux l = (l, []) := by
  induction l using splitOnTmpAux.induct with
  | case1 rest ih =>
    exact absurd ⟨[], rest, rfl⟩ h
  | case2 c rest hne ih =>
    have h' : ¬ tmpMarker <:+: rest := by
      intro hi
      obtain ⟨s, t, hst⟩ := hi
      exact h ⟨c :: s, t, by rw [← hst]; rfl⟩
    have hr := ih h'
    rw [splitOnTmpAux.eq_def]
    split
    · rename_i rest1 heq
      injection heq with h1 h2
      exact absurd (hne rest1 h1 h2) id
    · rename_i c2 rest2 hne2 heq
      injection heq with h1 h2
      subst h1; subst h2
      simp [hr]
    · rename_i heq
      cases heq
  | case3 => rfl

/-- Helper: splitting a marker-free path yields the path whole. -/
theorem splitOnTmp_no_marker (l : Str) (h : ¬ tmpMarker <:+: l) :
    splitOnTmp l = [l] := by
  unfold splitOnTmp
  rw [splitOnTmpAux_no_marker l h]

/-- **C8.** Finalization is idempotent at the fixpoint: for every path that
contains no occurrence of the temp marker `".tmp"`, `renameFile` leaves the
path unchanged (the pure `rename` returns the empty name, so no
`os.Rename` is issued), and applying finalization twice equals applying it
once. -/
theorem rename_fixpoint_on_final (old : Str) (h : ¬ tmpMarker <:+: old) :
    renameFileEffect old = old ∧
      renameFileEffect (renameFileEffect old) = renameFileEffect old := by
  have hs : splitOnTmp old = [old] := splitOnTmp_no_marker old h
  have hr : rename old = [] := by
    simp [rename, hs]
  have h1 : renameFileEffect old = old := by
    simp [renameFileEffect, hr]
  exact ⟨h1, by rw [h1, h1]⟩

/-- Witness for `rename_fixpoint_on_final` at the marker-free path
`"app.log"`. -/
theorem rename_fixpoint_on_final_witness :
    ¬ tmpMarker <:+: ("app.log".toList) ∧
      (renameFileEffect "app.log".toList = "app.log".toList ∧
        renameFileEffect (renameFileEffect "app.log".toList) =
          renameFileEffect "app.log".toList) :=
  ⟨by decide, rename_fixpoint_on_final ("app.log".toList) (by decide)⟩

/-- Helper: the collision probe never returns a generation below its
starting value. -/
theorem probeGen_le (stat : Str → StatResult) (name : Nat → Str) :
    ∀ (fuel g gf : Nat), probeGen stat name g fuel = some gf → g ≤ gf := by
  intro fuel
  induction fuel with
  | zero => intro g gf h; cases h
  | succ n ih =>
    intro g gf h
    rw [probeGen] at h
    split at h
    · cases h; exact Nat.le_refl _
    · exact Nat.le_of_succ_le (ih (g + 1) gf h)

/-- **C3.** The collision-probe loop selects the smallest generation `≥`
the starting value whose finalized candidate name (`rename` of the
generated name) draws a stat error; every smaller candidate's stat
succeeded (the finalized file exists), so a generation whose finalized file
exists is never selected.  The characterisation is stated for an arbitrary
`stat : Str → StatResult`, so an `errOther` result (permission denied,
etc.) is treated exactly like `errNotFound`: both end the probe. -/
theorem probeGen_selects_least_free (stat : Str → StatResult)
    (name : Nat → Str) (g0 fuel : Nat)
    (hfree : ∃ j, j < fuel ∧ stat (rename (name (g0 + j))) ≠ StatResult.ok) :
    ∃ gf, probeGen stat name g0 fuel = some gf ∧
      g0 ≤ gf ∧ stat (rename (name gf)) ≠ StatResult.ok ∧
      (∀ g, g0 ≤ g → g < gf → stat (rename (name g)) = StatResult.ok) ∧
      (∀ G, stat (rename (name G)) = StatResult.ok → gf ≠ G) := by
  induction fuel generalizing g0 with
  | zero => obtain ⟨j, hj, _⟩ := hfree; omega
  | succ n ih =>
    by_cases h0 : stat (rename (name g0)) = StatResult.ok
    · have hfree' : ∃ j, j < n ∧
          stat (rename (name (g0 + 1 + j))) ≠ StatResult.ok := by
        obtain ⟨j, hj, hP⟩ := hfree
        match j, hj, hP with
        | 0, _, hP => exact absurd h0 (by simpa using hP)
        | j + 1, hj, hP =>
          refine ⟨j, by omega, ?_⟩
          have hx : g0 + 1 + j = g0 + (j + 1) := by omega
          rw [hx]; exact hP
      obtain ⟨gf, hpr, hle, hfail, hmin, hne⟩ := ih (g0 + 1) hfree'
      refine ⟨gf, ?_, by omega, hfail, ?_, hne⟩
      · rw [probeGen]
        simp only [h0]
        simpa using hpr
      · intro g hg1 hg2
        rcases Nat.eq_or_lt_of_le hg1 with rfl | hlt
        · exact h0
        · exact hmin g hlt hg2
    · refine ⟨g0, ?_, Nat.le_refl _, h0, ?_, ?_⟩
      · rw [probeGen]; simp [h0]
      · intro g h1 h2; omega
      · intro G hG hEq; exact h0 (hEq ▸ hG)

/-- Witness for `probeGen_selects_least_free`: with a finalized file
existing at generation 0 and none at generation 1, the probe skips 0 and
selects 1. -/
theorem probeGen_selects_least_free_witness :
    ((1 : Nat) < 2 ∧ statC3 (rename (nameC3 (0 + 1))) ≠ StatResult.ok) ∧
      (∃ gf, probeGen statC3 nameC3 0 2 = some gf ∧
        0 ≤ gf ∧ statC3 (rename (nameC3 gf)) ≠ StatResult.ok ∧
        (∀ g, 0 ≤ g → g < gf → statC3 (rename (nameC3 g)) = StatResult.ok) ∧
        (∀ G, statC3 (rename (nameC3 G)) = StatResult.ok → gf ≠ G)) :=
  ⟨⟨by decide, by decide⟩,
    probeGen_selects_least_free statC3 nameC3 0 2 ⟨1, by decide, by decide⟩⟩

/-- **C5** (counterexample).  The claim fails on the code twice over: a
configured interval of 0 (non-positive) is *not* disabled but clamped to
one minute, and a configured interval of two minutes (`≥` one minute) does
*not* yield two minutes — the source multiplies the configured
`time.Duration` by `time.Minute` a second time, overflowing `int64`. -/
theorem rotationTime_counterexample :
    (Options.rotationTimeEff ⟨0, 0, 0, 0, true, false⟩ = timeMinute ∧
      Options.rotationTimeEff ⟨0, 0, 0, 0, true, false⟩ ≠ 0) ∧
      (Options.rotationTimeEff ⟨0, 0, 0, 120000000000, true, false⟩ =
          5769811253274869760 ∧
        Options.rotationTimeEff ⟨0, 0, 0, 120000000000, true, false⟩ ≠
          120000000000) := by
  decide

/-- **C5** (amended).  The effective rotation interval: negative configured
values disable time-based rotation (effective interval 0); configured
values in `[0, one minute)` — including 0 — are clamped up to exactly one
minute; configured values of at least one minute are multiplied by one
minute (in nanoseconds) with 64-bit signed wraparound. -/
theorem rotationTime_clamps (o : Options) :
    (o.rotationTime < 0 → o.rotationTimeEff = 0) ∧
      (0 ≤ o.rotationTime → o.rotationTime < timeMinute →
        o.rotationTimeEff = timeMinute) ∧
      (timeMinute ≤ o.rotationTime →
        o.rotationTimeEff = wrap64 (o.rotationTime * timeMinute)) := by
  have ht : timeMinute = 60000000000 := rfl
  refine ⟨fun h => ?_, fun h1 h2 => ?_, fun h => ?_⟩ <;>
    simp only [Options.rotationTimeEff]
  · rw [if_pos h]
  · rw [if_neg (by omega), if_pos h2]
  · rw [if_neg (by omega), if_neg (by omega)]

/-- Witness for `rotationTime_clamps` at the configured value `-5`
(disabled) — the hypothesis of the first conjunct discharged at a concrete
option set. -/
theorem rotationTime_clamps_witness :
    (-5 : Int) < 0 ∧ Options.rotationTimeEff ⟨0, 0, 0, -5, true, false⟩ = 0 :=
  ⟨by decide, (rotationTime_clamps ⟨0, 0, 0, -5, true, false⟩).1 (by decide)⟩

/-- C1: a write whose pending length pushes the accumulated byte count over
the maximum file size rotates exactly once in that call — the generation
number strictly increases (the increment at file.go:250 happens before the
probe, which only moves the generation further up), the byte count is reset
to 0 for the newly created file before the pending bytes are added, and the
single `Write` then accounts exactly the written bytes on the fresh
file. -/
theorem write_over_maxsize_rotates (env : Env) (o : Options) (st : WriterState)
    (wl : Nat) (fuel : Nat) (st1 : WriterState) (out : GWOut)
    (hsize : st.size + (wl : Int) > o.maxSizeBytes)
    (hget : getWriter env o st (wl : Int) true fuel = some (st1, out)) :
    st.generation < st1.generation ∧ st1.size = 0 ∧ out.created.isSome ∧
      WriteOp env o st wl fuel =
        some ({ st1 with size := st1.size + (wl : Int) }, out, wl) := by
  have hW : WriteOp env o st wl fuel =
      some ({ st1 with size := st1.size + (wl : Int) }, out, wl) := by
    unfold WriteOp
    rw [hget]
  have hrot : needRotation o st.fr st.size (wl : Int) o.rotationTimeEff
      (filename0 env o st) = true := by
    unfold needRotation
    simp [hsize]
  have hmit : mitigatedGeneration env (currTime1 env o st) (st.generation + 1)
      = st.generation + 1 := by
    unfold mitigatedGeneration
    rw [if_neg]
    rintro ⟨-, hlt⟩
    omega
  rw [getWriter] at hget
  simp only [hrot, if_true, if_pos hsize, hmit] at hget
  cases hpr : probeGen env.stat
      (fun g => env.genName (currTime1 env o st) o.rotationTimeEff g)
      (st.generation + 1) fuel with
  | none => rw [hpr] at hget; cases hget
  | some gf =>
    rw [hpr] at hget
    have hle := probeGen_le env.stat
      (fun g => env.genName (currTime1 env o st) o.rotationTimeEff g)
      fuel (st.generation + 1) gf hpr
    simp only [if_true] at hget
    injection hget with h
    injection h with h1 h2
    subst h1; subst h2
    refine ⟨?_, rfl, rfl, hW⟩
    show st.generation < gf
    omega

/-- Witness for `write_over_maxsize_rotates`: a 100-byte write onto a file
6 bytes below its 1 MiB limit. -/
theorem write_over_maxsize_rotates_witness :
    (stC1.size + (100 : Int) > optC1.maxSizeBytes) ∧
      (stC1.generation < stC1after.generation ∧ stC1after.size = 0 ∧
        outC1.created.isSome ∧
        WriteOp envC1 optC1 stC1 100 1 =
          some ({ stC1after with size := stC1after.size + (100 : Int) },
            outC1, 100)) :=
  ⟨by decide,
    write_over_maxsize_rotates envC1 optC1 stC1 100 1 stC1after outC1
      (by decide) (by decide)⟩

/-- C2: a write issued while a file is open, in an unchanged time bucket
(the name generated for now at the current generation equals the open
file's path) and fitting under the size limit, performs no rotation — the
file handle, generation and buffered writer are untouched, no file is
created or finalized, and the accumulated byte count grows by exactly the
written length. -/
theorem write_within_bucket_no_rotation (env : Env) (o : Options)
    (st : WriterState) (f : Str) (wl : Nat) (fuel : Nat)
    (hfr : st.fr = some f)
    (hsize : st.size + (wl : Int) ≤ o.maxSizeBytes)
    (hname : o.rotationTimeEff > 0 → filename0 env o st = f) :
    WriteOp env o st wl fuel =
      some ({ st with currTime := currTime1 env o st,
                      size := st.size + (wl : Int) },
            { created := none, finalized := none }, wl) := by
  have hrot : needRotation o st.fr st.size (wl : Int) o.rotationTimeEff
      (filename0 env o st) = false := by
    unfold needRotation
    rw [hfr]
    simp only [Option.isNone_some, Bool.false_or]
    have h2 : decide (st.size + (wl : Int) > o.maxSizeBytes) = false := by
      simp [not_lt.mpr hsize]
    rw [h2, Bool.false_or]
    by_cases hrt : o.rotationTimeEff > 0
    · rw [hname hrt]
      simp
    · simp [hrt]
  unfold WriteOp
  rw [getWriter]
  simp only [hrot, Bool.false_eq_true, if_false]

/-- Witness for `write_within_bucket_no_rotation`: a 5-byte write into an
open 10-byte file of the current bucket. -/
theorem write_within_bucket_no_rotation_witness :
    (stC2.fr = some ("cur.tmp".toList) ∧
      stC2.size + (5 : Int) ≤ optC2.maxSizeBytes ∧
      (optC2.rotationTimeEff > 0 →
        filename0 envC2 optC2 stC2 = "cur.tmp".toList)) ∧
      WriteOp envC2 optC2 stC2 5 1 =
        some ({ stC2 with currTime := currTime1 envC2 optC2 stC2,
                          size := stC2.size + (5 : Int) },
              { created := none, finalized := none }, 5) :=
  ⟨⟨by decide, by decide, by decide⟩,
    write_within_bucket_no_rotation envC2 optC2 stC2 ("cur.tmp".toList) 5 1
      (by decide) (by decide) (by decide)⟩

/-- C4 (counterexample): the claimed 5-minute restart window does not
govern the random generation reassignment.  Here the bucket timestamp
being opened lies 10⁴ seconds (about 2.8 hours) after the clock sample
used by the check — far outside any 5-minute window — and the generation
is still reassigned to the random value 7: the code compares a
*millisecond* count against the 5-minute constant expressed in
*nanoseconds* (and its reference clock is a fresh `time.Now`, not a
captured start time), so the window test passes at virtually any
distance. -/
theorem mitigation_window_counterexample :
    envC4.now - envC4.nowCheck = 10000000000000 ∧
      ¬(envC4.now - envC4.nowCheck < dittotime) ∧
      initWriterState.generation = 0 ∧
      getWriter envC4 optC4 initWriterState 0 true 1 =
        some ({ fr := some "g.tmp".toList, size := 0,
                currTime := 10000000000000, generation := 7, hasW := true },
              { created := some "g.tmp".toList, finalized := none }) ∧
      (7 : Nat) = envC4.rand.val := by
  decide

/-- C4 (amended): the reassignment condition of file.go:268 compares the
millisecond-truncated difference between the bucket timestamp and a fresh
clock sample against the 5-minute constant in nanoseconds.  Whenever the
check's clock sample is at or after the bucket timestamp — always the case
in a run, as the bucket timestamp is sampled first from the same clock —
the time test therefore holds, and the generation is reassigned to the
pseudo-random value in [0,10) exactly when it is still at its baseline
(below 1). -/
theorem mitigation_fires_at_baseline (env : Env) (ct : Int) (g : Nat)
    (h : ct ≤ env.nowCheck) :
    mitigatedGeneration env ct g = (if g = 0 then env.rand.val else g) ∧
      env.rand.val < 10 := by
  have h2 : goMillis (ct - env.nowCheck) ≤ 0 := by
    unfold goMillis
    have h3 := Int.tdiv_nonneg (a := -(ct - env.nowCheck)) (b := 1000000)
      (by omega) (by decide)
    rw [Int.neg_tdiv] at h3
    omega
  have hm : goMillis (ct - env.nowCheck) < dittotime := by
    have hd : (0 : Int) < dittotime := by decide
    omega
  unfold mitigatedGeneration
  refine ⟨?_, env.rand.isLt⟩
  by_cases hg : g = 0
  · subst hg
    rw [if_pos ⟨hm, Nat.zero_lt_one⟩, if_pos rfl]
  · rw [if_neg (fun hc => hg (Nat.lt_one_iff.mp hc.2)), if_neg hg]

/-- Witness for `mitigation_fires_at_baseline` at a bucket timestamp 5 ns
before the check's clock sample and baseline generation 0. -/
theorem mitigation_fires_at_baseline_witness :
    ((-5 : Int) ≤ envC4.nowCheck) ∧
      (mitigatedGeneration envC4 (-5) 0 =
          (if (0 : Nat) = 0 then envC4.rand.val else 0) ∧
        envC4.rand.val < 10) :=
  ⟨by decide, mitigation_fires_at_baseline envC4 (-5) 0 (by decide)⟩

/-- C9: when rotation is deemed necessary and only a dry-run check was
requested (`createFile = false`), the decider closes and finalizes the
currently open file if any (recorded in `finalized`), resets the byte
count to 0, clears the file handle to none, creates no replacement file,
leaves the buffered-writer field untouched, and returns without error. -/
theorem dryrun_clears_state (env : Env) (o : Options) (st : WriterState)
    (wl : Int) (fuel : Nat) (st1 : WriterState) (out : GWOut)
    (hrot : needRotation o st.fr st.size wl o.rotationTimeEff
      (filename0 env o st) = true)
    (hget : getWriter env o st wl false fuel = some (st1, out)) :
    st1.size = 0 ∧ st1.fr = none ∧ st1.hasW = st.hasW ∧ out.created = none ∧
      out.finalized = st.fr.map renameFileEffect := by
  rw [getWriter] at hget
  simp only [hrot, if_true] at hget
  cases hpr : probeGen env.stat
      (fun g => env.genName (currTime1 env o st) o.rotationTimeEff g)
      (mitigatedGeneration env (currTime1 env o st)
        (if st.size + wl > o.maxSizeBytes then st.generation + 1
         else st.generation)) fuel with
  | none => rw [hpr] at hget; cases hget
  | some gf =>
    rw [hpr] at hget
    simp only [Bool.false_eq_true, if_false] at hget
    injection hget with h
    injection h with h1 h2
    subst h1; subst h2
    exact ⟨rfl, rfl, rfl, rfl, rfl⟩

/-- Witness for `dryrun_clears_state`: a dry-run check on a writer whose
open file is over the size limit. -/
theorem dryrun_clears_state_witness :
    (needRotation optC9 stC9.fr stC9.size 0 optC9.rotationTimeEff
        (filename0 envC9 optC9 stC9) = true) ∧
      (stC9after.size = 0 ∧ stC9after.fr = none ∧
        stC9after.hasW = stC9.hasW ∧ outC9.created = none ∧
        outC9.finalized = stC9.fr.map renameFileEffect) :=
  ⟨by decide,
    dryrun_clears_state envC9 optC9 stC9 0 1 stC9after outC9
      (by decide) (by decide)⟩

/-- C10: on a freshly constructed writer no buffered stream exists and
`Sync` dereferences a nil `bufio.Writer` (modelled as `none`); after any
successful `Write` the buffered stream exists and `Sync` flushes it and
returns the flush result.  The hypothesis `hinv` is the evident reachable-
state invariant that a writer with an open file has a buffered stream
(true initially and preserved by every modelled operation). -/
theorem sync_after_write (env : Env) (o : Options) (st : WriterState)
    (wl : Nat) (fuel : Nat) (st2 : WriterState) (out : GWOut) (n : Nat)
    (hinv : st.hasW = false → st.fr = none)
    (hw : WriteOp env o st wl fuel = some (st2, out, n)) :
    SyncOp initWriterState = none ∧ SyncOp st2 = some () := by
  refine ⟨rfl, ?_⟩
  unfold WriteOp at hw
  cases hget : getWriter env o st (wl : Int) true fuel with
  | none => rw [hget] at hw; cases hw
  | some p =>
    obtain ⟨st1, out1⟩ := p
    rw [hget] at hw
    injection hw with h
    injection h with h1 h2
    have hhw : st2.hasW = st1.hasW := by rw [← h1]
    have h1w : st1.hasW = true := by
      rw [getWriter] at hget
      by_cases hrot : needRotation o st.fr st.size (wl : Int)
          o.rotationTimeEff (filename0 env o st) = true
      · simp only [hrot, if_true] at hget
        cases hpr : probeGen env.stat
            (fun g => env.genName (currTime1 env o st) o.rotationTimeEff g)
            (mitigatedGeneration env (currTime1 env o st)
              (if st.size + (wl : Int) > o.maxSizeBytes then st.generation + 1
               else st.generation)) fuel with
        | none => rw [hpr] at hget; cases hget
        | some gf =>
          rw [hpr] at hget
          simp only [if_true] at hget
          injection hget with hh
          injection hh with hh1 hh2
          rw [← hh1]
      · have hrotF : needRotation o st.fr st.size (wl : Int)
            o.rotationTimeEff (filename0 env o st) = false := by
          cases hx : needRotation o st.fr st.size (wl : Int)
            o.rotationTimeEff (filename0 env o st)
          · rfl
          · exact absurd hx hrot
        simp only [hrotF, Bool.false_eq_true, if_false] at hget
        injection hget with hh
        injection hh with hh1 hh2
        have hfr : st.fr.isNone = false := by
          unfold needRotation at hrotF
          cases hy : st.fr.isNone
          · rfl
          · rw [hy] at hrotF; simp at hrotF
        have hfrne : st.fr ≠ none := by
          intro hc
          rw [hc] at hfr
          simp at hfr
        have hwt : st.hasW = true := by
          cases hv : st.hasW
          · exact absurd (hinv hv) hfrne
          · rfl
        rw [← hh1]
        exact hwt
    unfold SyncOp
    rw [hhw, h1w]
    rfl

/-- Witness for `sync_after_write`: the first successful 3-byte write on a
fresh writer. -/
theorem sync_after_write_witness :
    ((initWriterState.hasW = false → initWriterState.fr = none) ∧
      WriteOp envC10 optC10 initWriterState 3 1 =
        some (stC10after, outC10, 3)) ∧
      (SyncOp initWriterState = none ∧ SyncOp stC10after = some ()) :=
  ⟨⟨by decide, by decide⟩,
    sync_after_write envC10 optC10 initWriterState 3 1 stC10after outC10 3
      (by decide) (by decide)⟩

/-- Helper: every path deleted by a sweep pass belongs to a stat-able
matched entry older than the retention age. -/
theorem sweep_deleted_sound (o : Options) (ct : Int) :
    ∀ ms : List FileEntry, ∀ n ∈ (stduffHandler o ct ms).deleted,
      ∃ e, e ∈ ms ∧ e.fullName = n ∧ e.statErr = false ∧
        ct - e.modTime > o.maxAgeEff := by
  intro ms
  induction ms with
  | nil => intro n hn; simp [stduffHandler] at hn
  | cons e rest ih =>
    intro n hn
    rw [stduffHandler] at hn
    split at hn
    · obtain ⟨e', he', hname, hst, hexp⟩ := ih n hn
      exact ⟨e', List.mem_cons_of_mem e he', hname, hst, hexp⟩
    · rename_i hst
      split at hn
      · rename_i hexp
        simp only [List.mem_cons] at hn
        rcases hn with rfl | hn
        · exact ⟨e, List.mem_cons_self e rest, rfl,
            Bool.not_eq_true _ ▸ hst, hexp⟩
        · obtain ⟨e', he', hname, hst', hexp'⟩ := ih _ hn
          exact ⟨e', List.mem_cons_of_mem e he', hname, hst', hexp'⟩
      · rename_i hexp
        split at hn
        · simp at hn
        · split at hn <;>
          · obtain ⟨e', he', hname, hst', hexp'⟩ := ih n hn
            exact ⟨e', List.mem_cons_of_mem e he', hname, hst', hexp'⟩

/-- Helper: every path handed to the completion callback by a sweep pass
belongs to a stat-able matched entry within the retention window. -/
theorem sweep_callbacks_sound (o : Options) (ct : Int) :
    ∀ ms : List FileEntry, ∀ n ∈ (stduffHandler o ct ms).callbacks,
      ∃ e, e ∈ ms ∧ e.fullName = n ∧ e.statErr = false ∧
        ¬(ct - e.modTime > o.maxAgeEff) := by
  intro ms
  induction ms with
  | nil => intro n hn; simp [stduffHandler] at hn
  | cons e rest ih =>
    intro n hn
    rw [stduffHandler] at hn
    split at hn
    · obtain ⟨e', he', hname, hst, hexp⟩ := ih n hn
      exact ⟨e', List.mem_cons_of_mem e he', hname, hst, hexp⟩
    · rename_i hst
      split at hn
      · rename_i hexp
        obtain ⟨e', he', hname, hst', hexp'⟩ := ih n hn
        exact ⟨e', List.mem_cons_of_mem e he', hname, hst', hexp'⟩
      · rename_i hexp
        split at hn
        · simp at hn
        · split at hn
          · simp only [List.mem_cons] at hn
            rcases hn with rfl | hn
            · exact ⟨e, List.mem_cons_self e rest, rfl,
                Bool.not_eq_true _ ▸ hst, hexp⟩
            · obtain ⟨e', he', hname, hst', hexp'⟩ := ih _ hn
              exact ⟨e', List.mem_cons_of_mem e he', hname, hst', hexp'⟩
          · obtain ⟨e', he', hname, hst', hexp'⟩ := ih n hn
            exact ⟨e', List.mem_cons_of_mem e he', hname, hst', hexp'⟩

/-- Helper: when no entry of the pass triggers the finalize-and-return
branch, every stat-able expired entry does get deleted. -/
theorem sweep_deleted_complete (o : Options) (ct : Int) :
    ∀ ms : List FileEntry, (∀ e ∈ ms, ¬ stopsSweep o ct e) →
      ∀ e ∈ ms, e.statErr = false → ct - e.modTime > o.maxAgeEff →
        e.fullName ∈ (stduffHandler o ct ms).deleted := by
  intro ms
  induction ms with
  | nil => intro _ e he; cases he
  | cons x rest ih =>
    intro hns e he hst hexp
    have hnsrest : ∀ e ∈ rest, ¬ stopsSweep o ct e :=
      fun e' he' => hns e' (List.mem_cons_of_mem x he')
    rw [stduffHandler]
    rcases List.mem_cons.mp he with rfl | he'
    · rw [if_neg (by simp [hst]), if_pos hexp]
      exact List.mem_cons_self _ _
    · split
      · exact ih hnsrest e he' hst hexp
      · rename_i hstx
        split
        · exact List.mem_cons_of_mem _ (ih hnsrest e he' hst hexp)
        · rename_i hexpx
          split
          · rename_i hstopx
            exact absurd ⟨Bool.not_eq_true _ ▸ hstx, hexpx, hstopx.1, hstopx.2⟩
              (hns x (List.mem_cons_self x rest))
          · split
            · exact ih hnsrest e he' hst hexp
            · exact ih hnsrest e he' hst hexp

/-- C6 (counterexample): a single sweep pass does not delete every matched
expired file.  With the matched list holding a stale temp file followed by
a file far older than the retention age, the pass renames the temp file
and `return`s (file.go:337), so the expired file is never visited: nothing
is deleted. -/
theorem sweep_miss_expired_counterexample :
    entOld.statErr = false ∧
      ctSweep - entOld.modTime > optSweep.maxAgeEff ∧
      stduffHandler optSweep ctSweep [entTmpA, entOld] =
        { deleted := [], renamed := [("a.tmp".toList, "a".toList)],
          callbacks := [] } ∧
      entOld.fullName ∉ (stduffHandler optSweep ctSweep [entTmpA, entOld]).deleted := by
  decide

/-- C6 (amended): a sweep pass deletes only stat-able matched files whose
age exceeds the retention age; it never deletes a matched file within the
retention window; it never invokes the completion callback on a file it
deleted in the same pass; and — provided no entry triggers the
finalize-and-return branch, which ends the pass early — it deletes exactly
the stat-able matched files older than the retention age.  Matched paths
are assumed pairwise distinct, as `filepath.Glob` returns them. -/
theorem sweep_deletes_only_expired (o : Options) (ct : Int)
    (ms : List FileEntry) (hnd : (ms.map FileEntry.fullName).Nodup) :
    (∀ n ∈ (stduffHandler o ct ms).deleted,
        ∃ e, e ∈ ms ∧ e.fullName = n ∧ e.statErr = false ∧
          ct - e.modTime > o.maxAgeEff) ∧
      (∀ e ∈ ms, e.statErr = false → ¬(ct - e.modTime > o.maxAgeEff) →
        e.fullName ∉ (stduffHandler o ct ms).deleted) ∧
      (∀ n ∈ (stduffHandler o ct ms).deleted,
        n ∉ (stduffHandler o ct ms).callbacks) ∧
      ((∀ e ∈ ms, ¬ stopsSweep o ct e) →
        ∀ e ∈ ms, e.statErr = false → ct - e.modTime > o.maxAgeEff →
          e.fullName ∈ (stduffHandler o ct ms).deleted) := by
  have hinj := List.inj_on_of_nodup_map hnd
  refine ⟨sweep_deleted_sound o ct ms, ?_, ?_, sweep_deleted_complete o ct ms⟩
  · intro e he hst hexp hc
    obtain ⟨e', he', hname, hst', hexp'⟩ := sweep_deleted_sound o ct ms _ hc
    have hee : e' = e := hinj he' he hname
    subst hee
    exact hexp hexp'
  · intro n hn hc
    obtain ⟨e1, he1, hn1, hst1, hexp1⟩ := sweep_deleted_sound o ct ms n hn
    obtain ⟨e2, he2, hn2, hst2, hexp2⟩ := sweep_callbacks_sound o ct ms n hc
    have hee : e1 = e2 := hinj he1 he2 (by rw [hn1, hn2])
    subst hee
    exact hexp2 hexp1

/-- Witness for `sweep_deletes_only_expired` on a two-entry match list
with one expired and one recent file (neither temp-marked). -/
theorem sweep_deletes_only_expired_witness :
    (([entOld, entRecent].map FileEntry.fullName).Nodup) ∧
      ((∀ n ∈ (stduffHandler optSweep ctSweep [entOld, entRecent]).deleted,
          ∃ e, e ∈ [entOld, entRecent] ∧ e.fullName = n ∧ e.statErr = false ∧
            ctSweep - e.modTime > optSweep.maxAgeEff) ∧
        (∀ e ∈ [entOld, entRecent], e.statErr = false →
          ¬(ctSweep - e.modTime > optSweep.maxAgeEff) →
          e.fullName ∉ (stduffHandler optSweep ctSweep [entOld, entRecent]).deleted) ∧
        (∀ n ∈ (stduffHandler optSweep ctSweep [entOld, entRecent]).deleted,
          n ∉ (stduffHandler optSweep ctSweep [entOld, entRecent]).callbacks) ∧
        ((∀ e ∈ [entOld, entRecent], ¬ stopsSweep optSweep ctSweep e) →
          ∀ e ∈ [entOld, entRecent], e.statErr = false →
            ctSweep - e.modTime > optSweep.maxAgeEff →
            e.fullName ∈ (stduffHandler optSweep ctSweep [entOld, entRecent]).deleted)) :=
  ⟨by decide,
    sweep_deletes_only_expired optSweep ctSweep [entOld, entRecent] (by decide)⟩

/-- Helper: one-step unfolding of the sweep over a cons cell, with the
source's four cases laid out. -/
theorem stduffHandler_cons (o : Options) (ct : Int) (x : FileEntry)
    (rest : List FileEntry) :
    stduffHandler o ct (x :: rest) =
      if x.statErr = true then stduffHandler o ct rest
      else if ct - x.modTime > o.maxAgeEff then
        { stduffHandler o ct rest with
            deleted := x.fullName :: (stduffHandler o ct rest).deleted }
      else if tmpMarker.isSuffixOf x.fullName = true ∧
          (ct - x.modTime ≥ wrap64 (o.rotationTimeEff * 2) ∨
            x.fsize + 2048 > o.maxSizeBytes) then
        { deleted := [],
          renamed := if rename x.baseName ≠ [] then
              [(x.baseName, rename x.baseName)] else [],
          callbacks := [] }
      else if o.hasStuffunc = true then
        { stduffHandler o ct rest with
            callbacks := x.fullName :: (stduffHandler o ct rest).callbacks }
      else stduffHandler o ct rest := rfl

/-- C7 (counterexample): the sweep does not continue past a finalized temp
file.  With two equally stale temp files matched, only the first is
renamed; the second, although it satisfies the same finalization
condition, is left untouched because the pass `return`s at the first
rename (file.go:337). -/
theorem sweep_stops_at_first_temp_counterexample :
    stopsSweep optSweep ctSweep entTmpB ∧
      stduffHandler optSweep ctSweep [entTmpA, entTmpB] =
        { deleted := [], renamed := [("a.tmp".toList, "a".toList)],
          callbacks := [] } ∧
      ("b.tmp".toList, "b".toList) ∉
        (stduffHandler optSweep ctSweep [entTmpA, entTmpB]).renamed := by
  decide

/-- C7 (amended): the first matched entry that is stat-able, within
retention, temp-marked, and either at least as old as the staleness
threshold (the int64-wrapped product of the effective rotation interval
and 2, as computed at file.go:336) or within 2048 bytes of the size limit,
is renamed to its finalized name (its base name with the marker stripped),
and the sweep pass stops there: entries after it are not processed in that
pass, while the entries before it are processed as usual. -/
theorem sweep_finalize_stops_pass (o : Options) (ct : Int)
    (pre : List FileEntry) (t : FileEntry) (post : List FileEntry)
    (hpre : ∀ e ∈ pre, ¬ stopsSweep o ct e)
    (ht : stopsSweep o ct t) :
    stduffHandler o ct (pre ++ t :: post) =
      { deleted := (stduffHandler o ct pre).deleted,
        renamed := if rename t.baseName ≠ [] then
            [(t.baseName, rename t.baseName)] else [],
        callbacks := (stduffHandler o ct pre).callbacks } := by
  induction pre with
  | nil =>
    obtain ⟨hst, hexp, hsuf, hcond⟩ := ht
    simp only [List.nil_append]
    rw [stduffHandler_cons o ct t post]
    rw [if_neg (by simp [hst]), if_neg hexp, if_pos ⟨hsuf, hcond⟩]
    rw [stduffHandler]
  | cons x rest ih =>
    have hx : ¬ stopsSweep o ct x := hpre x (List.mem_cons_self x rest)
    have hrest : ∀ e ∈ rest, ¬ stopsSweep o ct e :=
      fun e' he' => hpre e' (List.mem_cons_of_mem x he')
    have ihr := ih hrest
    simp only [List.cons_append]
    rw [stduffHandler_cons o ct x (rest ++ t :: post),
      stduffHandler_cons o ct x rest]
    by_cases h1 : x.statErr = true
    · rw [if_pos h1, if_pos h1, ihr]
    · rw [if_neg h1, if_neg h1]
      by_cases h2 : ct - x.modTime > o.maxAgeEff
      · rw [if_pos h2, if_pos h2, ihr]
      · rw [if_neg h2, if_neg h2]
        have h3 : ¬(tmpMarker.isSuffixOf x.fullName = true ∧
            (ct - x.modTime ≥ wrap64 (o.rotationTimeEff * 2) ∨
              x.fsize + 2048 > o.maxSizeBytes)) := by
          intro hc
          exact hx ⟨Bool.not_eq_true _ ▸ h1, h2, hc.1, hc.2⟩
        rw [if_neg h3, if_neg h3, ihr]
        by_cases h4 : o.hasStuffunc = true
        · rw [if_pos h4, if_pos h4]
        · rw [if_neg h4, if_neg h4]

/-- Witness for `sweep_finalize_stops_pass`: a recent plain file, then a
stale temp file, then an expired file; the pass handles the first, renames
the second and never reaches the third. -/
theorem sweep_finalize_stops_pass_witness :
    ((∀ e ∈ [entRecent], ¬ stopsSweep optSweep ctSweep e) ∧
        stopsSweep optSweep ctSweep entTmpA) ∧
      stduffHandler optSweep ctSweep ([entRecent] ++ entTmpA :: [entOld]) =
        { deleted := (stduffHandler optSweep ctSweep [entRecent]).deleted,
          renamed := if rename entTmpA.baseName ≠ [] then
              [(entTmpA.baseName, rename entTmpA.baseName)] else [],
          callbacks := (stduffHandler optSweep ctSweep [entRecent]).callbacks } :=
  ⟨⟨by decide, by decide⟩,
    sweep_finalize_stops_pass optSweep ctSweep [entRecent] entTmpA [entOld]
      (by decide) (by decide)⟩

end Fileout
